import Mathlib

/-!
# Virtual Memory Cart structure definitions (`vmem_defs.h`)

A shallow embedding of the on-disk structures declared in `vmem_defs.h`.

The header declares only constants and `#pragma pack(1)` structures, so the
embedding has two layers:

* a *layout* layer: every structure is the list of its members, in declaration
  order, each with the size of its element type and its array length.  Under
  `pack(1)` a member starts where the previous one ends, so offsets are running
  sums and the size of a structure is the sum of its members' sizes;
* a *value* layer: Lean structures with one field per member, used by the
  byte codecs.

The sizes of the types the header uses without declaring them
(`unsigned long`, `BupDir`) are parameters, collected in `Platform`.
-/

namespace Vmem

set_option autoImplicit false

/-! ## Constants -/

/-- Source: `#define CART_BUP_FOLDER "MEMCART"`. -/
def CART_BUP_FOLDER : String := "MEMCART"

/-- Source: `#define BUP_FILEPREFIX  "DATA"`. -/
def BUP_FILEPREFIX : String := "DATA"

/-- Source: `#define BUP_DATA_EXT    ".BUP"`. -/
def BUP_DATA_EXT : String := ".BUP"

/-- Source: `#define BUP_FILE_NAMELEN 24`. -/
def BUP_FILE_NAMELEN : Nat := 24

/-- Source: `#define VMEM_MAGIC_STRING_LEN 4`. -/
def VMEM_MAGIC_STRING_LEN : Nat := 4

/-- Source: `#define VMEM_MAGIC_STRING "Vmem"`. -/
def VMEM_MAGIC_STRING : String := "Vmem"

/-- Source: `#define VMEM_CART_INDEX_MAX (1024)`. -/
def VMEM_CART_INDEX_MAX : Nat := 1024

/-- Source: `#define VMEM_CART_INDEX_CNT (400)`. -/
def VMEM_CART_INDEX_CNT : Nat := 400

/-- Library RAM space, from the doc comment of `VMEM_CART_INDEX_MAX`:
"as library RAM space is 16KB". -/
def LIBRARY_RAM_BYTES : Nat := 16 * 1024

/-! ## Layout layer -/

/-- Sizes of the types the header uses but does not declare. -/
structure Platform where
  /-- The value of `sizeof(unsigned long)`. -/
  sizeof_ulong : Nat
  /-- The value of `sizeof(BupDir)`; `BupDir` comes from the console's backup library. -/
  sizeof_BupDir : Nat
  deriving Repr, DecidableEq

/-- The target platform: 32-bit `unsigned long`, and a `BupDir` of
"34 bytes + 2 padding bytes" as the comment on `vmem_bup_header_t.dir` says. -/
def target : Platform := ⟨4, 36⟩

/-- In C, `sizeof(char)` is 1. -/
def sizeof_char : Nat := 1

/-- In C, `sizeof(unsigned char)` is 1. -/
def sizeof_uchar : Nat := 1

/-- The 8-bit unsigned type `Uint8` of the console SDK. -/
def sizeof_Uint8 : Nat := 1

/-- One member of a structure: `elemType name[count]` (`count = 1` for a scalar). -/
structure Field where
  name : String
  elemSize : Nat
  count : Nat
  deriving Repr, DecidableEq

/-- Bytes a member occupies. -/
def Field.size (f : Field) : Nat := f.elemSize * f.count

/-- The value of `sizeof` for a `pack(1)` structure: members are laid out back to back. -/
def sizeof (fs : List Field) : Nat := (fs.map Field.size).sum

/-- Member offsets of a `pack(1)` structure whose first member starts at `base`. -/
def offsetsFrom : Nat → List Field → List Nat
  | _, [] => []
  | base, f :: fs => base :: offsetsFrom (base + f.size) fs

/-- Member offsets of a `pack(1)` structure (what `offsetof` gives, in declaration order). -/
def offsets (fs : List Field) : List Nat := offsetsFrom 0 fs

/-- Declared array length of the member called `name`. -/
def arrayLen (fs : List Field) (name : String) : Option Nat :=
  (fs.find? (fun f => f.name == name)).map Field.count

/-- Offset of the member called `name`. -/
def offsetOf (fs : List Field) (name : String) : Option Nat :=
  ((fs.zip (offsets fs)).find? (fun p => p.1.name == name)).map Prod.snd

/-- Layout of `struct _vmem_bup_stats_t`. -/
def vmem_bup_stats_layout : List Field :=
  [ ⟨"dir_cnt", sizeof_uchar, 1⟩,
    ⟨"read_cnt", sizeof_uchar, 1⟩,
    ⟨"write_cnt", sizeof_uchar, 1⟩,
    ⟨"verify_cnt", sizeof_uchar, 1⟩ ]

/-- Layout of `struct _vmem_bup_header_t`. -/
def vmem_bup_header_layout (p : Platform) : List Field :=
  [ ⟨"magic", sizeof_char, VMEM_MAGIC_STRING_LEN⟩,
    ⟨"save_id", p.sizeof_ulong, 1⟩,
    ⟨"stats", sizeof vmem_bup_stats_layout, 1⟩,
    ⟨"unused1", sizeof_char, 8 - sizeof vmem_bup_stats_layout⟩,
    ⟨"dir", p.sizeof_BupDir, 1⟩,
    ⟨"date", p.sizeof_ulong, 1⟩,
    ⟨"unused2", sizeof_char, 8⟩ ]

/-- Declared length of `file_used`: `VMEM_CART_INDEX_MAX / 32` (C integer division). -/
def file_used_len : Nat := VMEM_CART_INDEX_MAX / 32

/-- Layout of `struct _vmem_idxheader_t`. -/
def vmem_idxheader_layout (p : Platform) : List Field :=
  [ ⟨"savecntr", p.sizeof_ulong, 1⟩,
    ⟨"stats", sizeof vmem_bup_stats_layout, 1⟩,
    ⟨"unused1", sizeof_char, 8 - sizeof vmem_bup_stats_layout⟩,
    ⟨"magic", sizeof_char, VMEM_MAGIC_STRING_LEN⟩,
    ⟨"file_used", p.sizeof_ulong, file_used_len⟩ ]

/-- Layout of `struct _vmem_idxentry_t`. -/
def vmem_idxentry_layout (p : Platform) : List Field :=
  [ ⟨"bup_filename", sizeof_Uint8, 12⟩,
    ⟨"save_id", p.sizeof_ulong, 1⟩,
    ⟨"date", p.sizeof_ulong, 1⟩ ]

/-- Layout of `struct _vmem_fileindex_t`. -/
def vmem_fileindex_layout (p : Platform) : List Field :=
  [ ⟨"header", sizeof (vmem_idxheader_layout p), 1⟩,
    ⟨"entries", sizeof (vmem_idxentry_layout p), VMEM_CART_INDEX_CNT⟩ ]

/-- Layout of `struct _vmem_idxglobal_t`. -/
def vmem_idxglobal_layout (p : Platform) : List Field :=
  [ ⟨"name_buff", sizeof_char, BUP_FILE_NAMELEN⟩,
    ⟨"bup_hdr_buff", sizeof (vmem_bup_header_layout p), 1⟩,
    ⟨"tb_pad", sizeof_uchar, 2⟩ ]

/-- Ceiling division, for stating sizes the way the format description does. -/
def ceilDiv (a b : Nat) : Nat := (a + b - 1) / b

/-! ## Value layer -/

/-- A C string constant as its sequence of character codes (without the terminator). -/
def cstr (s : String) : List Nat := s.toList.map Char.toNat

/-- The bytes of `VMEM_MAGIC_STRING`. -/
def magicBytes : List Nat := cstr VMEM_MAGIC_STRING

/-- Value of `struct _vmem_bup_stats_t`. -/
structure vmem_bup_stats_t where
  dir_cnt : Nat
  read_cnt : Nat
  write_cnt : Nat
  verify_cnt : Nat
  deriving Repr, DecidableEq

/-- Value of `struct _vmem_bup_header_t`; arrays are byte lists, `dir` is the opaque
`BupDir` block. -/
structure vmem_bup_header_t where
  magic : List Nat
  save_id : Nat
  stats : vmem_bup_stats_t
  unused1 : List Nat
  dir : List Nat
  date : Nat
  unused2 : List Nat
  deriving Repr, DecidableEq

/-- Value of `struct _vmem_idxheader_t`; `file_used` is the list of bitmap words. -/
structure vmem_idxheader_t where
  savecntr : Nat
  stats : vmem_bup_stats_t
  unused1 : List Nat
  magic : List Nat
  file_used : List Nat
  deriving Repr, DecidableEq

/-- Value of `struct _vmem_idxentry_t`. -/
structure vmem_idxentry_t where
  bup_filename : List Nat
  save_id : Nat
  date : Nat
  deriving Repr, DecidableEq

/-- Value of `struct _vmem_fileindex_t`. -/
structure vmem_fileindex_t where
  header : vmem_idxheader_t
  entries : List vmem_idxentry_t
  deriving Repr, DecidableEq

/-- A byte array of the declared length `n`. -/
def IsBytes (n : Nat) (bs : List Nat) : Prop := bs.length = n ∧ ∀ b ∈ bs, b < 256

instance (n : Nat) (bs : List Nat) : Decidable (IsBytes n bs) := by
  unfold IsBytes; infer_instance

/-- The four counters are `unsigned char`: in 0..255. -/
def vmem_bup_stats_t.Valid (s : vmem_bup_stats_t) : Prop :=
  s.dir_cnt < 256 ∧ s.read_cnt < 256 ∧ s.write_cnt < 256 ∧ s.verify_cnt < 256

instance (s : vmem_bup_stats_t) : Decidable s.Valid := by
  unfold vmem_bup_stats_t.Valid; infer_instance

/-- Declared ranges of a record header: magic is "Vmem", `save_id` and `date` fit an
`unsigned long`, the counters are bytes, the reserved ranges are zero, `dir` is a
`BupDir`-sized byte block. -/
def vmem_bup_header_t.Valid (p : Platform) (h : vmem_bup_header_t) : Prop :=
  h.magic = magicBytes
  ∧ h.save_id < 2 ^ (8 * p.sizeof_ulong)
  ∧ h.stats.Valid
  ∧ h.unused1 = List.replicate (8 - sizeof vmem_bup_stats_layout) 0
  ∧ IsBytes p.sizeof_BupDir h.dir
  ∧ h.date < 2 ^ (8 * p.sizeof_ulong)
  ∧ h.unused2 = List.replicate 8 0

instance (p : Platform) (h : vmem_bup_header_t) : Decidable (h.Valid p) := by
  unfold vmem_bup_header_t.Valid; infer_instance

/-- Declared ranges of an index header: magic is "Vmem", `savecntr` and the
`file_used_len` bitmap words fit an `unsigned long`, the counters are bytes, the
reserved range is zero. -/
def vmem_idxheader_t.Valid (p : Platform) (h : vmem_idxheader_t) : Prop :=
  h.savecntr < 2 ^ (8 * p.sizeof_ulong)
  ∧ h.stats.Valid
  ∧ h.unused1 = List.replicate (8 - sizeof vmem_bup_stats_layout) 0
  ∧ h.magic = magicBytes
  ∧ h.file_used.length = file_used_len
  ∧ ∀ w ∈ h.file_used, w < 2 ^ (8 * p.sizeof_ulong)

instance (p : Platform) (h : vmem_idxheader_t) : Decidable (h.Valid p) := by
  unfold vmem_idxheader_t.Valid; infer_instance

/-- Declared ranges of an index entry: a 12-byte name, `save_id` and `date` fit an
`unsigned long`. -/
def vmem_idxentry_t.Valid (p : Platform) (x : vmem_idxentry_t) : Prop :=
  IsBytes 12 x.bup_filename
  ∧ x.save_id < 2 ^ (8 * p.sizeof_ulong)
  ∧ x.date < 2 ^ (8 * p.sizeof_ulong)

instance (p : Platform) (x : vmem_idxentry_t) : Decidable (x.Valid p) := by
  unfold vmem_idxentry_t.Valid; infer_instance

/-- Declared ranges of a file index: a valid header and `VMEM_CART_INDEX_CNT` valid
entries. -/
def vmem_fileindex_t.Valid (p : Platform) (x : vmem_fileindex_t) : Prop :=
  x.header.Valid p
  ∧ x.entries.length = VMEM_CART_INDEX_CNT
  ∧ ∀ en ∈ x.entries, en.Valid p

instance (p : Platform) (x : vmem_fileindex_t) : Decidable (x.Valid p) := by
  unfold vmem_fileindex_t.Valid; infer_instance

/-! ## Byte codecs -/

/-- Byte order of multi-byte integers. -/
inductive Endian where
  | big
  | little
  deriving Repr, DecidableEq

/-- Decoding failures. -/
inductive CodecError where
  | CorruptRecord
  | CorruptIndex
  deriving Repr, DecidableEq

/-- Modelled from the spec: the fixed-width integer writer of the record and index
codecs ("explicit fixed-width field encode/decode routines"), least significant byte
first, `w` bytes. -/
def encodeLE : Nat → Nat → List Nat
  | 0, _ => []
  | w + 1, n => n % 256 :: encodeLE w (n / 256)

/-- Modelled from the spec: the fixed-width integer reader matching `encodeLE`. -/
def decodeLE : List Nat → Nat
  | [] => 0
  | b :: bs => b + 256 * decodeLE bs

/-- Modelled from the spec: the integer writer of the codecs at width `w` with the
single fixed endianness `e`. -/
def encode_uint (e : Endian) (w n : Nat) : List Nat :=
  match e with
  | .little => encodeLE w n
  | .big => (encodeLE w n).reverse

/-- Modelled from the spec: the integer reader of the codecs with endianness `e`. -/
def decode_uint (e : Endian) (bs : List Nat) : Nat :=
  match e with
  | .little => decodeLE bs
  | .big => decodeLE bs.reverse

/-- Modelled from the spec: the array writer of the codecs, elements back to back at
full declared capacity. -/
def encode_array {α : Type} (enc : α → List Nat) : List α → List Nat
  | [] => []
  | x :: xs => enc x ++ encode_array enc xs

/-- Modelled from the spec: the array reader of the codecs, `n` elements of `sz` bytes. -/
def decode_array {α : Type} (dec : List Nat → α) (sz : Nat) : Nat → List Nat → List α
  | 0, _ => []
  | n + 1, bs => dec (bs.take sz) :: decode_array dec sz n (bs.drop sz)

/-- Modelled from the spec: the stats snapshot writer of the Stats Tracker, the four
counters as one byte each in the order of `vmem_bup_stats_t`. -/
def encode_stats (s : vmem_bup_stats_t) : List Nat :=
  [s.dir_cnt % 256, s.read_cnt % 256, s.write_cnt % 256, s.verify_cnt % 256]

/-- Modelled from the spec: the stats snapshot reader matching `encode_stats`. -/
def decode_stats (bs : List Nat) : vmem_bup_stats_t :=
  ⟨bs.getD 0 0, bs.getD 1 0, bs.getD 2 0, bs.getD 3 0⟩

/-- Modelled from the spec: Record Codec `encode(header) -> fixed-size byte block`, the
members of `vmem_bup_header_t` in declaration order at their declared widths, reserved
ranges zero-filled. -/
def encode_bup_header (p : Platform) (e : Endian) (h : vmem_bup_header_t) : List Nat :=
  h.magic
    ++ (encode_uint e p.sizeof_ulong h.save_id
    ++ (encode_stats h.stats
    ++ (List.replicate (8 - sizeof vmem_bup_stats_layout) 0
    ++ (h.dir
    ++ (encode_uint e p.sizeof_ulong h.date
    ++ List.replicate 8 0)))))

/-- Modelled from the spec: Record Codec `decode(bytes) -> BackupRecordHeader | CorruptRecord`;
fails when the block is shorter than the fixed size or the magic does not match; the
reserved ranges are not looked at. -/
def decode_bup_header (p : Platform) (e : Endian) (bs : List Nat) :
    Except CodecError vmem_bup_header_t :=
  if bs.length < sizeof (vmem_bup_header_layout p) then .error .CorruptRecord
  else
    let magic := bs.take VMEM_MAGIC_STRING_LEN
    let r1 := bs.drop VMEM_MAGIC_STRING_LEN
    let save_id := decode_uint e (r1.take p.sizeof_ulong)
    let r2 := r1.drop p.sizeof_ulong
    let stats := decode_stats (r2.take (sizeof vmem_bup_stats_layout))
    let r3 := r2.drop (sizeof vmem_bup_stats_layout)
    let r4 := r3.drop (8 - sizeof vmem_bup_stats_layout)
    let dir := r4.take p.sizeof_BupDir
    let r5 := r4.drop p.sizeof_BupDir
    let date := decode_uint e (r5.take p.sizeof_ulong)
    if magic = magicBytes then
      .ok { magic := magic, save_id := save_id, stats := stats,
            unused1 := List.replicate (8 - sizeof vmem_bup_stats_layout) 0,
            dir := dir, date := date, unused2 := List.replicate 8 0 }
    else .error .CorruptRecord

/-- Modelled from the spec: Index Codec writer for the index header, the members of
`vmem_idxheader_t` in declaration order, reserved range zero-filled. -/
def encode_idxheader (p : Platform) (e : Endian) (h : vmem_idxheader_t) : List Nat :=
  encode_uint e p.sizeof_ulong h.savecntr
    ++ (encode_stats h.stats
    ++ (List.replicate (8 - sizeof vmem_bup_stats_layout) 0
    ++ (h.magic
    ++ encode_array (encode_uint e p.sizeof_ulong) h.file_used)))

/-- Modelled from the spec: Index Codec reader for the index header; fails with
`CorruptIndex` on a short block or a magic mismatch. -/
def decode_idxheader (p : Platform) (e : Endian) (bs : List Nat) :
    Except CodecError vmem_idxheader_t :=
  if bs.length < sizeof (vmem_idxheader_layout p) then .error .CorruptIndex
  else
    let savecntr := decode_uint e (bs.take p.sizeof_ulong)
    let r1 := bs.drop p.sizeof_ulong
    let stats := decode_stats (r1.take (sizeof vmem_bup_stats_layout))
    let r2 := r1.drop (sizeof vmem_bup_stats_layout)
    let r3 := r2.drop (8 - sizeof vmem_bup_stats_layout)
    let magic := r3.take VMEM_MAGIC_STRING_LEN
    let r4 := r3.drop VMEM_MAGIC_STRING_LEN
    let file_used := decode_array (decode_uint e) p.sizeof_ulong file_used_len r4
    if magic = magicBytes then
      .ok { savecntr := savecntr, stats := stats,
            unused1 := List.replicate (8 - sizeof vmem_bup_stats_layout) 0,
            magic := magic, file_used := file_used }
    else .error .CorruptIndex

/-- Modelled from the spec: Index Codec writer for one `vmem_idxentry_t`. -/
def encode_idxentry (p : Platform) (e : Endian) (x : vmem_idxentry_t) : List Nat :=
  x.bup_filename
    ++ (encode_uint e p.sizeof_ulong x.save_id
    ++ encode_uint e p.sizeof_ulong x.date)

/-- Modelled from the spec: Index Codec reader for one `vmem_idxentry_t`. -/
def decode_idxentry (p : Platform) (e : Endian) (bs : List Nat) : vmem_idxentry_t :=
  { bup_filename := bs.take (sizeof_Uint8 * 12),
    save_id := decode_uint e ((bs.drop (sizeof_Uint8 * 12)).take p.sizeof_ulong),
    date := decode_uint e
      (((bs.drop (sizeof_Uint8 * 12)).drop p.sizeof_ulong).take p.sizeof_ulong) }

/-- Modelled from the spec: Index Codec `encode` over the whole FileIndex, the header
followed by the full entry array. -/
def encode_fileindex (p : Platform) (e : Endian) (x : vmem_fileindex_t) : List Nat :=
  encode_idxheader p e x.header ++ encode_array (encode_idxentry p e) x.entries

/-- Modelled from the spec: Index Codec `decode` over the whole FileIndex; fails with
`CorruptIndex` on a short read or a magic mismatch, and checks nothing else. -/
def decode_fileindex (p : Platform) (e : Endian) (bs : List Nat) :
    Except CodecError vmem_fileindex_t :=
  if bs.length < sizeof (vmem_fileindex_layout p) then .error .CorruptIndex
  else
    match decode_idxheader p e (bs.take (sizeof (vmem_idxheader_layout p))) with
    | .error err => .error err
    | .ok header =>
      .ok { header := header,
            entries := decode_array (decode_idxentry p e) (sizeof (vmem_idxentry_layout p))
              VMEM_CART_INDEX_CNT (bs.drop (sizeof (vmem_idxheader_layout p))) }

/-! ## Backup file names -/

/-- Modelled from the spec: the slot to file number map of the directory layout
`DATA001.BUP .. DATA999.BUP`, where slot 0 is `DATA001`. -/
def fileNumber (slot : Nat) : Nat := slot + 1

/-- Modelled from the spec: the "zero-padded 3-digit" number of the filename pattern, as
ASCII digits; a number above 999 has no 3-digit form. -/
def digits3 (n : Nat) : Option (List Nat) :=
  if n ≤ 999 then some [48 + n / 100 % 10, 48 + n / 10 % 10, 48 + n % 10] else none

/-- Modelled from the spec: the backup file name formatter, `BUP_FILEPREFIX` + 3 digits +
`BUP_DATA_EXT` (the formatter itself is not part of `vmem_defs.h`). -/
def bupFileName (n : Nat) : Option (List Nat) :=
  (digits3 n).map (fun d => cstr BUP_FILEPREFIX ++ d ++ cstr BUP_DATA_EXT)

/-- Modelled from the spec: the backup path formatter, following the example
"/MEMCART/DATA999.XYZ" in the comment on `BUP_FILE_NAMELEN`. -/
def bupPath (n : Nat) : Option (List Nat) :=
  (bupFileName n).map (fun f => cstr "/" ++ cstr CART_BUP_FOLDER ++ cstr "/" ++ f)

/-- Modelled from the spec: the file name of the allocation-bitmap index `slot`. -/
def slotFileName (slot : Nat) : Option (List Nat) := bupFileName (fileNumber slot)

/-- Modelled from the spec: reads one ASCII decimal digit. -/
def parseDigit (c : Nat) : Option Nat :=
  if 48 ≤ c ∧ c ≤ 57 then some (c - 48) else none

/-- Modelled from the spec: reads the 3-digit numeric suffix of a backup file name. -/
def parseDigits3 : List Nat → Option Nat
  | [a, b, c] =>
    match parseDigit a, parseDigit b, parseDigit c with
    | some x, some y, some z => some (100 * x + 10 * y + z)
    | _, _, _ => none
  | _ => none

/-- Modelled from the spec: the file number of a name matching the pattern
prefix + numeric suffix + extension. -/
def parseFileNumber (name : List Nat) : Option Nat :=
  if name.take (cstr BUP_FILEPREFIX).length = cstr BUP_FILEPREFIX
      ∧ name.drop ((cstr BUP_FILEPREFIX).length + 3) = cstr BUP_DATA_EXT then
    parseDigits3 ((name.drop (cstr BUP_FILEPREFIX).length).take 3)
  else none

/-- Modelled from the spec: the slot number derived "from its filename's numeric suffix"
(inverse of `slotFileName`; file number 0 names no slot). -/
def parseSlot (name : List Nat) : Option Nat :=
  match parseFileNumber name with
  | some (n + 1) => some n
  | _ => none

/-! ## Sample values -/

/-- A record header within the declared ranges. -/
def sample_bup_header : vmem_bup_header_t :=
  { magic := magicBytes, save_id := 4294967295, stats := ⟨1, 2, 3, 255⟩,
    unused1 := List.replicate 4 0, dir := List.replicate 36 65, date := 305419896,
    unused2 := List.replicate 8 0 }

/-- An index header within the declared ranges, slots 0 and 1 marked used. -/
def sample_idxheader : vmem_idxheader_t :=
  { savecntr := 7, stats := ⟨0, 9, 2, 1⟩, unused1 := List.replicate 4 0,
    magic := magicBytes, file_used := 3 :: List.replicate 31 0 }

/-- An index entry within the declared ranges. -/
def sample_idxentry : vmem_idxentry_t :=
  { bup_filename := List.replicate 12 83, save_id := 5, date := 4294967295 }

/-- A file index within the declared ranges. -/
def sample_fileindex : vmem_fileindex_t :=
  { header := sample_idxheader, entries := List.replicate 400 sample_idxentry }

/-! ## Codec lemmas -/

theorem magicBytes_eq : magicBytes = [86, 109, 101, 109] := by decide

theorem sizeof_stats_eq : sizeof vmem_bup_stats_layout = 4 := by decide

theorem take_append_len {a r : List Nat} {n : Nat} (h : a.length = n) :
    (a ++ r).take n = a := by
  subst h; simp

theorem drop_append_len {a r : List Nat} {n : Nat} (h : a.length = n) :
    (a ++ r).drop n = r := by
  subst h; simp

theorem encodeLE_length (w n : Nat) : (encodeLE w n).length = w := by
  induction w generalizing n with
  | zero => rfl
  | succ w ih => simp [encodeLE, ih]

theorem decodeLE_encodeLE (w n : Nat) (h : n < 256 ^ w) : decodeLE (encodeLE w n) = n := by
  induction w generalizing n with
  | zero =>
    simp at h
    simp [encodeLE, decodeLE, h]
  | succ w ih =>
    have h2 : n / 256 < 256 ^ w := by
      rw [pow_succ] at h
      exact Nat.div_lt_of_lt_mul (by rw [Nat.mul_comm]; exact h)
    simp only [encodeLE, decodeLE, ih _ h2]
    omega

theorem encode_uint_length (e : Endian) (w n : Nat) : (encode_uint e w n).length = w := by
  cases e <;> simp [encode_uint, encodeLE_length]

theorem decode_encode_uint (e : Endian) (w n : Nat) (h : n < 2 ^ (8 * w)) :
    decode_uint e (encode_uint e w n) = n := by
  have h2 : n < 256 ^ w := by
    rw [pow_mul] at h
    exact h
  cases e <;> simp [encode_uint, decode_uint, decodeLE_encodeLE w n h2]

theorem decode_encode_stats (s : vmem_bup_stats_t) (h : s.Valid) :
    decode_stats (encode_stats s) = s := by
  obtain ⟨h1, h2, h3, h4⟩ := h
  cases s
  simp only [encode_stats, decode_stats, List.getD_cons_zero, List.getD_cons_succ,
    vmem_bup_stats_t.mk.injEq]
  simp only at h1 h2 h3 h4
  refine ⟨Nat.mod_eq_of_lt h1, Nat.mod_eq_of_lt h2, Nat.mod_eq_of_lt h3, Nat.mod_eq_of_lt h4⟩

theorem encode_stats_length (s : vmem_bup_stats_t) : (encode_stats s).length = 4 := rfl

theorem encode_array_length {α : Type} (enc : α → List Nat) (sz : Nat) (xs : List α)
    (h : ∀ x ∈ xs, (enc x).length = sz) :
    (encode_array enc xs).length = xs.length * sz := by
  induction xs with
  | nil => simp [encode_array]
  | cons x xs ih =>
    have hx := h x (List.mem_cons_self x xs)
    have ih2 := ih (fun y hy => h y (List.mem_cons_of_mem x hy))
    simp only [encode_array, List.length_append, List.length_cons, hx, ih2]
    rw [Nat.add_mul]
    omega

theorem decode_encode_array {α : Type} (enc : α → List Nat) (dec : List Nat → α) (sz : Nat)
    (xs : List α) (rest : List Nat)
    (h : ∀ x ∈ xs, (enc x).length = sz ∧ dec (enc x) = x) :
    decode_array dec sz xs.length (encode_array enc xs ++ rest) = xs := by
  induction xs with
  | nil => simp [decode_array]
  | cons x xs ih =>
    obtain ⟨hl, hd⟩ := h x (List.mem_cons_self x xs)
    have ih2 := ih (fun y hy => h y (List.mem_cons_of_mem x hy))
    simp only [encode_array, List.length_cons, decode_array, List.append_assoc,
      take_append_len hl, drop_append_len hl, hd, ih2]

theorem encode_bup_header_length (p : Platform) (e : Endian) (h : vmem_bup_header_t)
    (hv : h.Valid p) :
    (encode_bup_header p e h).length = sizeof (vmem_bup_header_layout p) := by
  obtain ⟨hm, _, _, _, ⟨hd, _⟩, _, _⟩ := hv
  simp [encode_bup_header, encode_uint_length, encode_stats_length, hm, magicBytes_eq, hd,
    sizeof, vmem_bup_header_layout, vmem_bup_stats_layout, Field.size, sizeof_char,
    sizeof_uchar, VMEM_MAGIC_STRING_LEN]
  omega

theorem decode_encode_bup_header (p : Platform) (e : Endian) (h : vmem_bup_header_t)
    (hv : h.Valid p) :
    decode_bup_header p e (encode_bup_header p e h) = .ok h := by
  have hlen := encode_bup_header_length p e h hv
  obtain ⟨hm, hs, hst, hu1, ⟨hd, _⟩, hdt, hu2⟩ := hv
  have hml : h.magic.length = VMEM_MAGIC_STRING_LEN := by rw [hm]; rfl
  have hnot : ¬ (encode_bup_header p e h).length < sizeof (vmem_bup_header_layout p) := by
    omega
  unfold decode_bup_header
  rw [if_neg hnot]
  unfold encode_bup_header
  have hsl : (encode_stats h.stats).length = sizeof vmem_bup_stats_layout := rfl
  have hrl : (List.replicate (8 - sizeof vmem_bup_stats_layout) 0 : List Nat).length
      = 8 - sizeof vmem_bup_stats_layout := List.length_replicate _ _
  simp only [take_append_len hml, drop_append_len hml,
    take_append_len (encode_uint_length e p.sizeof_ulong h.save_id),
    drop_append_len (encode_uint_length e p.sizeof_ulong h.save_id),
    take_append_len hsl, drop_append_len hsl, drop_append_len hrl,
    take_append_len hd, drop_append_len hd,
    take_append_len (encode_uint_length e p.sizeof_ulong h.date),
    decode_encode_uint e _ _ hs, decode_encode_uint e _ _ hdt,
    decode_encode_stats _ hst]
  rw [if_pos hm, ← hu1, ← hu2]

theorem encode_idxentry_length (p : Platform) (e : Endian) (x : vmem_idxentry_t)
    (hv : x.Valid p) :
    (encode_idxentry p e x).length = sizeof (vmem_idxentry_layout p) := by
  obtain ⟨⟨hn, _⟩, _, _⟩ := hv
  simp [encode_idxentry, encode_uint_length, hn, sizeof, vmem_idxentry_layout, Field.size,
    sizeof_Uint8]

theorem decode_encode_idxentry (p : Platform) (e : Endian) (x : vmem_idxentry_t)
    (hv : x.Valid p) :
    decode_idxentry p e (encode_idxentry p e x) = x := by
  obtain ⟨⟨hn, _⟩, hs, hd⟩ := hv
  have hn' : x.bup_filename.length = sizeof_Uint8 * 12 := by rw [hn]; rfl
  unfold decode_idxentry encode_idxentry
  simp only [take_append_len hn', drop_append_len hn',
    take_append_len (encode_uint_length e p.sizeof_ulong x.save_id),
    drop_append_len (encode_uint_length e p.sizeof_ulong x.save_id),
    decode_encode_uint e _ _ hs]
  have ht : (encode_uint e p.sizeof_ulong x.date).take p.sizeof_ulong
      = encode_uint e p.sizeof_ulong x.date := by
    have := take_append_len (r := []) (encode_uint_length e p.sizeof_ulong x.date)
    simpa using this
  rw [ht, decode_encode_uint e _ _ hd]

theorem encode_idxheader_length (p : Platform) (e : Endian) (h : vmem_idxheader_t)
    (hv : h.Valid p) :
    (encode_idxheader p e h).length = sizeof (vmem_idxheader_layout p) := by
  obtain ⟨_, _, _, hm, hfl, _⟩ := hv
  have ha := encode_array_length (encode_uint e p.sizeof_ulong) p.sizeof_ulong h.file_used
    (fun x _ => encode_uint_length e p.sizeof_ulong x)
  simp [encode_idxheader, encode_uint_length, encode_stats_length, hm, magicBytes_eq, ha,
    hfl, sizeof, vmem_idxheader_layout, vmem_bup_stats_layout, Field.size, sizeof_char,
    sizeof_uchar, VMEM_MAGIC_STRING_LEN]
  rw [Nat.mul_comm file_used_len]
  omega

theorem decode_encode_idxheader_append (p : Platform) (e : Endian) (h : vmem_idxheader_t)
    (rest : List Nat) (hv : h.Valid p) :
    decode_idxheader p e (encode_idxheader p e h ++ rest) = .ok h := by
  have hlen := encode_idxheader_length p e h hv
  obtain ⟨hs, hst, hu1, hm, hfl, hw⟩ := hv
  have hml : h.magic.length = VMEM_MAGIC_STRING_LEN := by rw [hm]; rfl
  have hnot : ¬ (encode_idxheader p e h ++ rest).length < sizeof (vmem_idxheader_layout p) := by
    rw [List.length_append]
    omega
  unfold decode_idxheader
  rw [if_neg hnot]
  unfold encode_idxheader
  have hsl : (encode_stats h.stats).length = sizeof vmem_bup_stats_layout := rfl
  have hrl : (List.replicate (8 - sizeof vmem_bup_stats_layout) 0 : List Nat).length
      = 8 - sizeof vmem_bup_stats_layout := List.length_replicate _ _
  have harr := decode_encode_array (encode_uint e p.sizeof_ulong) (decode_uint e)
    p.sizeof_ulong h.file_used rest
    (fun x hx => ⟨encode_uint_length e p.sizeof_ulong x, decode_encode_uint e _ _ (hw x hx)⟩)
  rw [hfl] at harr
  simp only [List.append_assoc,
    take_append_len (encode_uint_length e p.sizeof_ulong h.savecntr),
    drop_append_len (encode_uint_length e p.sizeof_ulong h.savecntr),
    take_append_len hsl, drop_append_len hsl, drop_append_len hrl,
    take_append_len hml, drop_append_len hml, harr,
    decode_encode_uint e _ _ hs, decode_encode_stats _ hst]
  rw [if_pos hm, ← hu1]

theorem decode_encode_idxheader (p : Platform) (e : Endian) (h : vmem_idxheader_t)
    (hv : h.Valid p) :
    decode_idxheader p e (encode_idxheader p e h) = .ok h := by
  have := decode_encode_idxheader_append p e h [] hv
  simpa using this

theorem encode_fileindex_length (p : Platform) (e : Endian) (x : vmem_fileindex_t)
    (hv : x.Valid p) :
    (encode_fileindex p e x).length = sizeof (vmem_fileindex_layout p) := by
  obtain ⟨hh, hl, he⟩ := hv
  have ha := encode_array_length (encode_idxentry p e) (sizeof (vmem_idxentry_layout p))
    x.entries (fun en hen => encode_idxentry_length p e en (he en hen))
  simp only [encode_fileindex, List.length_append, encode_idxheader_length p e _ hh, ha, hl]
  simp [sizeof, vmem_fileindex_layout, Field.size]
  rw [Nat.mul_comm]

theorem decode_encode_fileindex (p : Platform) (e : Endian) (x : vmem_fileindex_t)
    (hv : x.Valid p) :
    decode_fileindex p e (encode_fileindex p e x) = .ok x := by
  have hlen := encode_fileindex_length p e x hv
  obtain ⟨hh, hl, he⟩ := hv
  have hnot : ¬ (encode_fileindex p e x).length < sizeof (vmem_fileindex_layout p) := by
    omega
  unfold decode_fileindex
  rw [if_neg hnot]
  unfold encode_fileindex
  have hhl := encode_idxheader_length p e _ hh
  have harr := decode_encode_array (encode_idxentry p e) (decode_idxentry p e)
    (sizeof (vmem_idxentry_layout p)) x.entries []
    (fun en hen => ⟨encode_idxentry_length p e en (he en hen),
      decode_encode_idxentry p e en (he en hen)⟩)
  rw [hl, List.append_nil] at harr
  rw [take_append_len hhl, drop_append_len hhl, decode_encode_idxheader p e _ hh]
  simp only [harr]

theorem sample_bup_header_valid : sample_bup_header.Valid target := by decide

theorem sample_idxheader_valid : sample_idxheader.Valid target := by decide

theorem sample_idxentry_valid : sample_idxentry.Valid target := by decide

theorem sample_fileindex_valid : sample_fileindex.Valid target := by
  refine ⟨sample_idxheader_valid, ?_, ?_⟩
  · exact List.length_replicate 400 sample_idxentry
  · intro en hen
    have h : en = sample_idxentry := List.eq_of_mem_replicate hen
    rw [h]
    exact sample_idxentry_valid

/-! ## File name lemmas -/

theorem cstr_prefix_eq : cstr BUP_FILEPREFIX = [68, 65, 84, 65] := by decide

theorem cstr_ext_eq : cstr BUP_DATA_EXT = [46, 66, 85, 80] := by decide

theorem cstr_folder_eq : cstr CART_BUP_FOLDER = [77, 69, 77, 67, 65, 82, 84] := by decide

theorem cstr_slash_eq : cstr "/" = [47] := by decide

theorem parseDigit_digit (d : Nat) (h : d < 10) : parseDigit (48 + d) = some d := by
  unfold parseDigit
  rw [if_pos (by omega)]
  congr 1
  omega

theorem bupFileName_eq (n : Nat) (h : n ≤ 999) :
    bupFileName n
      = some [68, 65, 84, 65, 48 + n / 100 % 10, 48 + n / 10 % 10, 48 + n % 10,
          46, 66, 85, 80] := by
  simp [bupFileName, digits3, h, cstr_prefix_eq, cstr_ext_eq]

theorem parseFileNumber_bupFileName (n : Nat) (h : n ≤ 999) :
    parseFileNumber [68, 65, 84, 65, 48 + n / 100 % 10, 48 + n / 10 % 10, 48 + n % 10,
      46, 66, 85, 80] = some n := by
  have h1 := parseDigit_digit (n / 100 % 10) (by omega)
  have h2 := parseDigit_digit (n / 10 % 10) (by omega)
  have h3 := parseDigit_digit (n % 10) (by omega)
  simp only [parseFileNumber, cstr_prefix_eq, cstr_ext_eq, List.length_cons, List.length_nil,
    List.take_succ_cons, List.take_zero, List.drop_succ_cons, List.drop_zero, and_self,
    if_true, parseDigits3, h1, h2, h3]
  congr 1
  omega

theorem parseSlot_slotFileName (s : Nat) (h : s < 999) :
    ∃ name, slotFileName s = some name ∧ name.length = 11 ∧ parseSlot name = some s := by
  have hn : fileNumber s ≤ 999 := by unfold fileNumber; omega
  refine ⟨_, bupFileName_eq (fileNumber s) hn, rfl, ?_⟩
  unfold parseSlot
  rw [parseFileNumber_bupFileName (fileNumber s) hn]
  rfl

/-! ## Layout theorems -/

/-- C1: with a 32-bit `unsigned long` and a 36-byte `BupDir`, the packed record header
`vmem_bup_header_t` is magic(4), save_id(4), stats(4), unused1(4), dir(36), date(4),
unused2(8) in that order, at offsets 0, 4, 8, 12, 16, 52, 56, for a total of 64 bytes. -/
theorem bup_header_layout_64 :
    (vmem_bup_header_layout (Platform.mk 4 36)).map Field.name
        = ["magic", "save_id", "stats", "unused1", "dir", "date", "unused2"]
    ∧ (vmem_bup_header_layout (Platform.mk 4 36)).map Field.size = [4, 4, 4, 4, 36, 4, 8]
    ∧ offsets (vmem_bup_header_layout (Platform.mk 4 36)) = [0, 4, 8, 12, 16, 52, 56]
    ∧ sizeof (vmem_bup_header_layout (Platform.mk 4 36)) = 64 := by
  refine ⟨by decide, by decide, by decide, by decide⟩

/-- C2: with a 32-bit `unsigned long`, the packed index header `vmem_idxheader_t` is
savecntr(4), stats(4), unused1(4), magic(4), file_used in that order; the declared array
length `VMEM_CART_INDEX_MAX / 32` equals `ceil(VMEM_CART_INDEX_MAX / 32)` = 32 words, the
bitmap occupies `ceil(VMEM_CART_INDEX_MAX / 32) * 4` = 128 bytes at offset 16, and the
header is 144 bytes. -/
theorem idxheader_layout_144 :
    (vmem_idxheader_layout (Platform.mk 4 36)).map Field.name
        = ["savecntr", "stats", "unused1", "magic", "file_used"]
    ∧ (vmem_idxheader_layout (Platform.mk 4 36)).map Field.size
        = [4, 4, 4, 4, ceilDiv VMEM_CART_INDEX_MAX 32 * 4]
    ∧ arrayLen (vmem_idxheader_layout (Platform.mk 4 36)) "file_used"
        = some (VMEM_CART_INDEX_MAX / 32)
    ∧ VMEM_CART_INDEX_MAX / 32 = ceilDiv VMEM_CART_INDEX_MAX 32
    ∧ ceilDiv VMEM_CART_INDEX_MAX 32 = 32
    ∧ ceilDiv VMEM_CART_INDEX_MAX 32 * 4 = 128
    ∧ offsetOf (vmem_idxheader_layout (Platform.mk 4 36)) "file_used" = some 16
    ∧ sizeof (vmem_idxheader_layout (Platform.mk 4 36)) = 144 := by
  refine ⟨by decide, by decide, by decide, by decide, by decide, by decide, by decide,
    by decide⟩

/-- C4 (as stated, refuted): the capacity of `vmem_fileindex_t.entries` is not
`VMEM_CART_INDEX_MAX`; the array is declared with `VMEM_CART_INDEX_CNT` = 400 elements,
so it is not a capacity larger than the usable count either. -/
theorem entries_capacity_not_index_max :
    ¬ (arrayLen (vmem_fileindex_layout target) "entries" = some VMEM_CART_INDEX_MAX
        ∧ ∃ c, arrayLen (vmem_fileindex_layout target) "entries" = some c
            ∧ VMEM_CART_INDEX_CNT < c) := by
  decide

/-- C4 (amended): the capacity of `vmem_fileindex_t.entries` is fixed at the compile-time
usable count `VMEM_CART_INDEX_CNT` = 400, which is distinct from and smaller than the
maximum slot capacity `VMEM_CART_INDEX_MAX` = 1024 that the `file_used` bitmap is sized
to (`file_used` has `VMEM_CART_INDEX_MAX / 32` words of 32 bits). -/
theorem entries_capacity_is_index_cnt :
    arrayLen (vmem_fileindex_layout target) "entries" = some VMEM_CART_INDEX_CNT
    ∧ VMEM_CART_INDEX_CNT = 400
    ∧ arrayLen (vmem_idxheader_layout target) "file_used" = some (VMEM_CART_INDEX_MAX / 32)
    ∧ VMEM_CART_INDEX_MAX / 32 * 32 = VMEM_CART_INDEX_MAX
    ∧ VMEM_CART_INDEX_MAX = 1024
    ∧ VMEM_CART_INDEX_CNT ≠ VMEM_CART_INDEX_MAX
    ∧ VMEM_CART_INDEX_CNT < VMEM_CART_INDEX_MAX := by
  refine ⟨by decide, by decide, by decide, by decide, by decide, by decide, by decide⟩

/-- C5: `file_used` holds exactly `VMEM_CART_INDEX_MAX` bits in 32-bit words: its word
count times 32 is `VMEM_CART_INDEX_MAX`, and `s ↦ (s / 32, s % 32)` is a bijection from
the slots `s < VMEM_CART_INDEX_MAX` onto the positions (word `< file_used_len`,
bit `< 32`); in particular every slot's word index is within the array. -/
theorem file_used_slot_bijection :
    arrayLen (vmem_idxheader_layout target) "file_used" = some file_used_len
    ∧ file_used_len * 32 = VMEM_CART_INDEX_MAX
    ∧ Set.BijOn (fun s : Nat => (s / 32, s % 32)) (Set.Iio VMEM_CART_INDEX_MAX)
        (Set.Iio file_used_len ×ˢ Set.Iio 32) := by
  refine ⟨by decide, by decide, ?_, ?_, ?_⟩
  · intro s hs
    have hs' : s < 1024 := hs
    show s / 32 < 32 ∧ s % 32 < 32
    omega
  · intro s _ t _ hst
    have h := Prod.mk.inj hst
    have h1 : s / 32 = t / 32 := h.1
    have h2 : s % 32 = t % 32 := h.2
    omega
  · rintro ⟨w, b⟩ ⟨hw, hb⟩
    have hw' : w < 32 := hw
    have hb' : b < 32 := hb
    refine ⟨w * 32 + b, ?_, ?_⟩
    · show w * 32 + b < 1024
      omega
    · show ((w * 32 + b) / 32, (w * 32 + b) % 32) = (w, b)
      have h1 : (w * 32 + b) / 32 = w := by omega
      have h2 : (w * 32 + b) % 32 = b := by omega
      rw [h1, h2]

/-- C6: the usable capacity is at most the maximum capacity, and every index `i` of
`vmem_fileindex_t.entries` (`i < VMEM_CART_INDEX_CNT`, the declared array length) has a
bit in `file_used`: its word index `i / 32` is below the number of bitmap words. -/
theorem entries_index_has_bit (i : Nat) (hi : i < VMEM_CART_INDEX_CNT) :
    VMEM_CART_INDEX_CNT ≤ VMEM_CART_INDEX_MAX
    ∧ arrayLen (vmem_fileindex_layout target) "entries" = some VMEM_CART_INDEX_CNT
    ∧ arrayLen (vmem_idxheader_layout target) "file_used" = some file_used_len
    ∧ i / 32 < file_used_len := by
  refine ⟨by decide, by decide, by decide, ?_⟩
  have hi' : i < 400 := hi
  show i / 32 < 32
  omega

/-- Witness for C6 at the last entry, `i = 399`. -/
theorem entries_index_has_bit_witness :
    399 < VMEM_CART_INDEX_CNT
    ∧ (VMEM_CART_INDEX_CNT ≤ VMEM_CART_INDEX_MAX
      ∧ arrayLen (vmem_fileindex_layout target) "entries" = some VMEM_CART_INDEX_CNT
      ∧ arrayLen (vmem_idxheader_layout target) "file_used" = some file_used_len
      ∧ 399 / 32 < file_used_len) :=
  ⟨by decide, entries_index_has_bit 399 (by decide)⟩

/-- C9: with a 32-bit `unsigned long`, `vmem_idxentry_t` is 12 + 4 + 4 = 20 bytes and
`sizeof(vmem_fileindex_t)` is the constant
`sizeof(vmem_idxheader_t) + VMEM_CART_INDEX_CNT * 20` = 144 + 400 * 20 = 8144 bytes,
which fits in the 16 KB of library RAM. -/
theorem fileindex_size_8144 :
    (vmem_idxentry_layout (Platform.mk 4 36)).map Field.size = [12, 4, 4]
    ∧ sizeof (vmem_idxentry_layout (Platform.mk 4 36)) = 20
    ∧ sizeof (vmem_fileindex_layout (Platform.mk 4 36))
        = sizeof (vmem_idxheader_layout (Platform.mk 4 36)) + VMEM_CART_INDEX_CNT * 20
    ∧ sizeof (vmem_idxheader_layout (Platform.mk 4 36)) = 144
    ∧ sizeof (vmem_fileindex_layout (Platform.mk 4 36)) = 8144
    ∧ LIBRARY_RAM_BYTES = 16384
    ∧ sizeof (vmem_fileindex_layout (Platform.mk 4 36)) ≤ LIBRARY_RAM_BYTES := by
  refine ⟨by decide, by decide, by decide, by decide, by decide, by decide, by decide⟩

/-- C10 (the code at the claim's configuration): with the 64-byte record header,
`sizeof(vmem_idxglobal_t)` is 24 + 64 + 2 = 90 bytes, which is not a multiple of 4
(90 mod 4 = 2), although `tb_pad` is commented "Padding for 4 bytes alignment". -/
theorem idxglobal_size_not_multiple_of_4 :
    sizeof (vmem_bup_header_layout (Platform.mk 4 36)) = 64
    ∧ sizeof (vmem_idxglobal_layout (Platform.mk 4 36))
        = BUP_FILE_NAMELEN + sizeof (vmem_bup_header_layout (Platform.mk 4 36)) + 2
    ∧ sizeof (vmem_idxglobal_layout (Platform.mk 4 36)) = 90
    ∧ sizeof (vmem_idxglobal_layout (Platform.mk 4 36)) % 4 = 2
    ∧ ¬ (4 ∣ sizeof (vmem_idxglobal_layout (Platform.mk 4 36))) := by
  refine ⟨by decide, by decide, by decide, by decide, by decide⟩

/-! ## Codec round trip -/

/-- C3: for every record header, index header and file index within the declared ranges
(magic "Vmem", `save_id`, `date`, `savecntr` and bitmap words below 2^32, the four stats
counters below 256, reserved ranges zero), decoding the encoded block gives the value
back, for either endianness; the encoded blocks have the fixed sizes 64, 144 and 8144. -/
theorem codec_roundtrip (e : Endian) (h : vmem_bup_header_t) (ih : vmem_idxheader_t)
    (fi : vmem_fileindex_t)
    (hh : h.Valid target) (hih : ih.Valid target) (hfi : fi.Valid target) :
    (decode_bup_header target e (encode_bup_header target e h) = .ok h
      ∧ (encode_bup_header target e h).length = 64)
    ∧ (decode_idxheader target e (encode_idxheader target e ih) = .ok ih
      ∧ (encode_idxheader target e ih).length = 144)
    ∧ (decode_fileindex target e (encode_fileindex target e fi) = .ok fi
      ∧ (encode_fileindex target e fi).length = 8144) := by
  refine ⟨⟨decode_encode_bup_header target e h hh, ?_⟩,
    ⟨decode_encode_idxheader target e ih hih, ?_⟩,
    ⟨decode_encode_fileindex target e fi hfi, ?_⟩⟩
  · rw [encode_bup_header_length target e h hh]; decide
  · rw [encode_idxheader_length target e ih hih]; decide
  · rw [encode_fileindex_length target e fi hfi]; decide

/-- Witness for C3 at the sample values, big-endian. -/
theorem codec_roundtrip_witness :
    sample_bup_header.Valid target ∧ sample_idxheader.Valid target
    ∧ sample_fileindex.Valid target
    ∧ ((decode_bup_header target Endian.big (encode_bup_header target Endian.big
          sample_bup_header) = .ok sample_bup_header
        ∧ (encode_bup_header target Endian.big sample_bup_header).length = 64)
      ∧ (decode_idxheader target Endian.big (encode_idxheader target Endian.big
          sample_idxheader) = .ok sample_idxheader
        ∧ (encode_idxheader target Endian.big sample_idxheader).length = 144)
      ∧ (decode_fileindex target Endian.big (encode_fileindex target Endian.big
          sample_fileindex) = .ok sample_fileindex
        ∧ (encode_fileindex target Endian.big sample_fileindex).length = 8144)) :=
  ⟨sample_bup_header_valid, sample_idxheader_valid, sample_fileindex_valid,
    codec_roundtrip Endian.big sample_bup_header sample_idxheader sample_fileindex
      sample_bup_header_valid sample_idxheader_valid sample_fileindex_valid⟩

/-! ## File names -/

/-- C7 (as stated, refuted): the allocation-bitmap index 999 is below
`VMEM_CART_INDEX_MAX`, but its file number 1000 is not in 1..999 and has no 3-digit
suffix, so it has no file name of the pattern. -/
theorem slot_999_has_no_3_digit_name :
    999 < VMEM_CART_INDEX_MAX
    ∧ ¬ (1 ≤ fileNumber 999 ∧ fileNumber 999 ≤ 999)
    ∧ slotFileName 999 = none := by
  refine ⟨by decide, by decide, by decide⟩

/-- C7 (amended): for every allocation-bitmap index `s < 999`, which covers every usable
slot `s < VMEM_CART_INDEX_CNT`, the file number `s + 1` lies in 1..999, the file name is
`BUP_FILEPREFIX` + 3 zero-padded digits + `BUP_DATA_EXT`, parsing it gives `s` back, and
two such indices with the same file name are equal. -/
theorem slot_filename_roundtrip (s t : Nat) (hs : s < 999) (ht : t < 999) :
    VMEM_CART_INDEX_CNT ≤ 999
    ∧ (1 ≤ fileNumber s ∧ fileNumber s ≤ 999)
    ∧ slotFileName s = some (cstr BUP_FILEPREFIX
        ++ [48 + (s + 1) / 100 % 10, 48 + (s + 1) / 10 % 10, 48 + (s + 1) % 10]
        ++ cstr BUP_DATA_EXT)
    ∧ (∃ name, slotFileName s = some name ∧ parseSlot name = some s)
    ∧ (slotFileName s = slotFileName t → s = t) := by
  obtain ⟨name, hname, _, hparse⟩ := parseSlot_slotFileName s hs
  obtain ⟨name2, hname2, _, hparse2⟩ := parseSlot_slotFileName t ht
  refine ⟨by decide, ⟨by unfold fileNumber; omega, by unfold fileNumber; omega⟩, ?_,
    ⟨name, hname, hparse⟩, ?_⟩
  · have hn : fileNumber s ≤ 999 := by unfold fileNumber; omega
    rw [slotFileName, bupFileName_eq (fileNumber s) hn, cstr_prefix_eq, cstr_ext_eq]
    rfl
  · intro heq
    rw [hname, hname2] at heq
    have hnn : name = name2 := Option.some.inj heq
    rw [hnn, hparse2] at hparse
    exact (Option.some.inj hparse).symm

/-- Witness for C7 (amended) at the last usable slot 399 and slot 0. -/
theorem slot_filename_roundtrip_witness :
    399 < 999 ∧ 0 < 999
    ∧ (VMEM_CART_INDEX_CNT ≤ 999
      ∧ (1 ≤ fileNumber 399 ∧ fileNumber 399 ≤ 999)
      ∧ slotFileName 399 = some (cstr BUP_FILEPREFIX
          ++ [48 + (399 + 1) / 100 % 10, 48 + (399 + 1) / 10 % 10, 48 + (399 + 1) % 10]
          ++ cstr BUP_DATA_EXT)
      ∧ (∃ name, slotFileName 399 = some name ∧ parseSlot name = some 399)
      ∧ (slotFileName 399 = slotFileName 0 → 399 = 0)) :=
  ⟨by decide, by decide, slot_filename_roundtrip 399 0 (by decide) (by decide)⟩

/-- C8: for every file number `n` in 0..999 the backup path
"/" + `CART_BUP_FOLDER` + "/" + `BUP_FILEPREFIX` + 3 digits + `BUP_DATA_EXT` has exactly
20 characters, so with its terminator (21 bytes) it fits in the `BUP_FILE_NAMELEN` = 24
bytes of `vmem_idxglobal_t.name_buff`. -/
theorem bup_path_fits_name_buff (n : Nat) (hn : n ≤ 999) :
    ∃ path, bupPath n = some path
      ∧ path = cstr "/" ++ cstr CART_BUP_FOLDER ++ cstr "/" ++ cstr BUP_FILEPREFIX
          ++ [48 + n / 100 % 10, 48 + n / 10 % 10, 48 + n % 10] ++ cstr BUP_DATA_EXT
      ∧ path.length = 20
      ∧ path.length + 1 = 21
      ∧ path.length + 1 ≤ BUP_FILE_NAMELEN
      ∧ arrayLen (vmem_idxglobal_layout target) "name_buff" = some BUP_FILE_NAMELEN
      ∧ BUP_FILE_NAMELEN = 24 := by
  refine ⟨_, ?_, rfl, ?_, ?_, ?_, by decide, rfl⟩
  · simp [bupPath, bupFileName, digits3, hn]
  · simp [cstr_slash_eq, cstr_folder_eq, cstr_prefix_eq, cstr_ext_eq]
  · simp [cstr_slash_eq, cstr_folder_eq, cstr_prefix_eq, cstr_ext_eq]
  · simp [cstr_slash_eq, cstr_folder_eq, cstr_prefix_eq, cstr_ext_eq, BUP_FILE_NAMELEN]

/-- Witness for C8 at the example of the source comment, file number 999. -/
theorem bup_path_fits_name_buff_witness :
    999 ≤ 999
    ∧ ∃ path, bupPath 999 = some path
      ∧ path = cstr "/" ++ cstr CART_BUP_FOLDER ++ cstr "/" ++ cstr BUP_FILEPREFIX
          ++ [48 + 999 / 100 % 10, 48 + 999 / 10 % 10, 48 + 999 % 10] ++ cstr BUP_DATA_EXT
      ∧ path.length = 20
      ∧ path.length + 1 = 21
      ∧ path.length + 1 ≤ BUP_FILE_NAMELEN
      ∧ arrayLen (vmem_idxglobal_layout target) "name_buff" = some BUP_FILE_NAMELEN
      ∧ BUP_FILE_NAMELEN = 24 :=
  ⟨by decide, bup_path_fits_name_buff 999 (by decide)⟩

end Vmem
